import Mathlib

/-!
# Verification of the ffplayout forwarding loop (`play`, src/src/output/mod.rs)

This file gives a shallow embedding of the `play` function of
`src/src/output/mod.rs`: the per-item decoder loop (lines 105-212), the inner
byte-forwarding loop (lines 162-207) and the shutdown sequence (lines 214-242).

The I/O environment (results of `dec_reader.read`, `ingest_receiver.try_recv`,
`enc_writer.write` / `write_all`, `terminate`, `wait`, `terminator`) is made
explicit: every run is a pure function of an environment trace, and produces an
event trace recording, in program order, every read, every byte sequence
actually accepted by the encoder's stdin, every termination request, every flag
write and every log line the claims talk about.

Modelling notes, each tied to source lines:
* `enc_writer.write_all(&receive)` (line 169) either accepts the whole chunk or
  fails; `enc_writer.write(&buffer[..dec_bytes_len])` (line 193) returns the
  number of bytes actually accepted (the `std::io::Write::write` contract
  allows any partial write) and the code ignores that number, so the
  environment chooses the accepted count `n` and the stream receives
  `bytes.take n`.
* `panic!` (read error line 165, wait error line 210, spawn error line 141)
  and `Option::unwrap` on `None` (`node.process.unwrap()` line 111,
  `node.filter.unwrap()` line 121) abort the process: the run ends with a
  `panicked` outcome and the shutdown sequence of lines 214-242 does not run.
* `node.out`/`node.seek` feed only the human-readable duration in the line-115
  log; the duration text is elided from the `logPlay` event.
* the `decoder_term` slot (line 150) holds `Some` terminator exactly when
  `dec_proc.terminator()` succeeded (lines 146-149); this is the per-item
  environment bit `termAcquire`.
-/

deriving instance DecidableEq for Except

namespace FFplayout

/-- Size of the stack buffer `buffer: [u8; 65424]` (line 37). -/
def bufLen : Nat := 65424

/-- Size of one ingest chunk, `[u8; 32256]` (line 92). -/
def chunkLen : Nat := 32256

/-- One `Media` node as consumed by `play` (fields of `node` read at lines
106, 111, 118, 121). Timing fields feed only a log line and are elided. -/
structure Media where
  cmd : Option (List String)
  process : Option Bool
  filter : Option (List String)
  source : String
  deriving DecidableEq, Repr

/-- Environment of one iteration of the inner forwarding loop
(lines 162-207): the result of the blocking decoder read, the non-blocking
ingest poll, the two possible encoder writes and the terminate call.
`decWrite = .ok n` means the encoder's stdin accepted `min n len` bytes of the
requested buffer (the code ignores the count, line 193). -/
structure IterEnv where
  decRead : Except Unit (List Nat)
  ingest : Option (List Nat)
  ingestWriteOk : Bool
  decWrite : Except Unit Nat
  termOk : Bool
  deriving DecidableEq, Repr

/-- Per-item environment: result of `dec_proc.spawn` (line 137), of
`dec_proc.terminator()` (line 146), the inner-loop iterations, and the result
of `dec_proc.wait()` (line 209). -/
structure ItemEnv where
  spawnOk : Bool
  termAcquire : Bool
  iters : List IterEnv
  waitOk : Bool
  deriving DecidableEq, Repr

/-- Session-wide configuration: the ffmpeg log format string (line 28), the
global decode settings (line 27), and whether the source is a playlist, in
which case `init_playlist` holds the playlist's init flag (lines 34, 66). -/
structure Cfg where
  ffLogFormat : String
  decSettings : List String
  hasInit : Bool
  deriving DecidableEq, Repr

/-- Observable events of a run, in program order. `writeEnc bs` records that
the byte sequence `bs` was accepted by the encoder's stdin. -/
inductive Ev where
  | logPlay (source : String)
  | spawnDec (args : List String)
  | logSpawnErr
  | readDec (r : Except Unit (List Nat))
  | recvChunk (chunk : List Nat)
  | writeEnc (bytes : List Nat)
  | writeEncFail
  | termReq (ok : Bool)
  | logSwitchToLive
  | setInit
  | logSwitchFromLive
  | waitDec
  | setTerminated
  | sleepGrace
  | shutTermDec (ok : Bool)
  | logShutDec
  | shutTermEnc (ok : Bool)
  | logShutEnc
  | shutTermSrv (ok : Bool)
  | logShutSrv
  | logPlayoutDone
  deriving DecidableEq, Repr

/-- How the inner forwarding loop (lines 162-207) ended. -/
inductive ItemExit where
  | eof
  | encFail
  | panicRead
  | outOfEnv
  deriving DecidableEq, Repr

/-- Reason the process would abort (`panic!` / `unwrap` on `None`). -/
inductive PanicKind where
  | readErr
  | waitErr
  | processNone
  | filterNone
  | spawnErr
  deriving DecidableEq, Repr

/-- How the `'source_iter` item loop (lines 105-212) ended. -/
inductive LoopExit where
  | cmdNone
  | itemsEnd
  | encFail
  | panicked (k : PanicKind)
  | outOfEnv
  deriving DecidableEq, Repr

/-- Overall result of `play`. `done` means the shutdown sequence of lines
214-242 ran; `panic` means the process aborted before it. -/
inductive PlayResult where
  | done (e : LoopExit)
  | panic (k : PanicKind)
  | incomplete
  deriving DecidableEq, Repr

/-- The inner byte-forwarding loop, lines 162-207.  State threaded through:
`lo` is `live_on` (line 35, session-wide), `kd` is `kill_dec` (line 160,
per item), `slot` says whether the shared `decoder_term` slot currently holds
a terminator (line 150), `hasInit` whether `init_playlist` is `Some`.
One `IterEnv` is consumed per iteration; an exhausted environment ends the
run with `.outOfEnv` (the real loop would keep iterating).
Returns (event trace, final `live_on`, exit cause). -/
def runIters (hasInit : Bool) :
    List IterEnv → Bool → Bool → Bool → List Ev × Bool × ItemExit
  | [], lo, _, _ => ([], lo, .outOfEnv)
  | e :: rest, lo, kd, slot =>
    match e.decRead with
    | .error _ => ([.readDec (.error ())], lo, .panicRead)
    | .ok bytes =>
      match e.ingest with
      | some chunk =>
        if e.ingestWriteOk then
          let takeoverEvs :=
            if kd then
              (if slot then
                Ev.termReq e.termOk ::
                  (if e.termOk then [Ev.logSwitchToLive] else [])
              else [])
              ++ (if hasInit then [Ev.setInit] else [])
            else []
          let r := runIters hasInit rest true false slot
          (.readDec (.ok bytes) :: .recvChunk chunk :: .writeEnc chunk ::
            takeoverEvs ++ r.1, r.2)
        else
          ([.readDec (.ok bytes), .recvChunk chunk, .writeEncFail], lo, .encFail)
      | none =>
        if 0 < bytes.length then
          match e.decWrite with
          | .error _ => ([.readDec (.ok bytes), .writeEncFail], lo, .encFail)
          | .ok n =>
            let r := runIters hasInit rest lo kd slot
            (.readDec (.ok bytes) :: .writeEnc (bytes.take n) :: r.1, r.2)
        else
          if lo then
            ([.readDec (.ok bytes), .logSwitchFromLive], false, .eof)
          else
            ([.readDec (.ok bytes)], lo, .eof)

/-- The decoder command line, built exactly as at lines 122-130: the fixed
diagnostic flags, `append` of the item's command, conditional `append` of the
filter list, `append` of the global decode settings. -/
def decCmdSource (ffLogFormat : String) (cmd filter decSettings : List String) :
    List String :=
  let dec_cmd := ["-hide_banner", "-nostats", "-v", ffLogFormat]
  let dec_cmd := dec_cmd ++ cmd
  let dec_cmd := if filter.length > 1 then dec_cmd ++ filter else dec_cmd
  dec_cmd ++ decSettings

/-- The decoder command line as the spec words it: fixed flags, then the
item's command, then the filter arguments only when the filter list has more
than one entry, then the global decode settings, concatenated in that order. -/
def decCmdSpec (ffLogFormat : String) (cmd filter decSettings : List String) :
    List String :=
  ["-hide_banner", "-nostats", "-v", ffLogFormat] ++ cmd
    ++ (if filter.length > 1 then filter else []) ++ decSettings

/-- The `'source_iter` loop over media items, lines 105-212.  State threaded:
`lo` is `live_on`, `slot` whether `decoder_term` holds a terminator.
Returns (event trace, final `live_on`, final slot state, exit cause). -/
def runItems (cfg : Cfg) :
    List (Media × ItemEnv) → Bool → Bool → List Ev × Bool × Bool × LoopExit
  | [], lo, slot => ([], lo, slot, .itemsEnd)
  | (m, ie) :: rest, lo, slot =>
    match m.cmd with
    | none => ([], lo, slot, .cmdNone)
    | some cmd =>
      match m.process with
      | none => ([], lo, slot, .panicked .processNone)
      | some proc =>
        if proc = false then
          runItems cfg rest lo slot
        else
          match m.filter with
          | none => ([.logPlay m.source], lo, slot, .panicked .filterNone)
          | some filter =>
            if ie.spawnOk = false then
              ([.logPlay m.source, .logSpawnErr], lo, slot, .panicked .spawnErr)
            else
              let args := decCmdSource cfg.ffLogFormat cmd filter cfg.decSettings
              let slot' := ie.termAcquire
              let r := runIters cfg.hasInit ie.iters lo true slot'
              let head := [Ev.logPlay m.source, Ev.spawnDec args]
              match r.2.2 with
              | .eof =>
                if ie.waitOk then
                  let r' := runItems cfg rest r.2.1 slot'
                  (head ++ r.1 ++ Ev.waitDec :: r'.1, r'.2)
                else
                  (head ++ r.1, r.2.1, slot', .panicked .waitErr)
              | .encFail => (head ++ r.1, r.2.1, slot', .encFail)
              | .panicRead => (head ++ r.1, r.2.1, slot', .panicked .readErr)
              | .outOfEnv => (head ++ r.1, r.2.1, slot', .outOfEnv)

/-- Full session environment: configuration, result of `enc_proc.terminator()`
(lines 81-85), whether the ingest listener registered a server terminator by
shutdown time (line 234), the results of the three shutdown terminate calls,
and the item stream. -/
structure SessionEnv where
  cfg : Cfg
  encTermAcquire : Bool
  serverSlot : Bool
  shutDecOk : Bool
  shutEncOk : Bool
  shutSrvOk : Bool
  items : List (Media × ItemEnv)
  deriving DecidableEq, Repr

/-- The shutdown sequence of lines 214-242: set `is_terminated`, sleep one
second, then for each populated slot — decoder, encoder, server, in that
order — call `terminate` and log on success, then the final log line. -/
def shutdownEvents (decSlot : Bool) (env : SessionEnv) : List Ev :=
  [Ev.setTerminated, Ev.sleepGrace]
    ++ (if decSlot then
          Ev.shutTermDec env.shutDecOk ::
            (if env.shutDecOk then [Ev.logShutDec] else [])
        else [])
    ++ (if env.encTermAcquire then
          Ev.shutTermEnc env.shutEncOk ::
            (if env.shutEncOk then [Ev.logShutEnc] else [])
        else [])
    ++ (if env.serverSlot then
          Ev.shutTermSrv env.shutSrvOk ::
            (if env.shutSrvOk then [Ev.logShutSrv] else [])
        else [])
    ++ [Ev.logPlayoutDone]

/-- The whole of `play` after process setup: the item loop, then — unless the
loop ended in a panic (process abort) — the shutdown sequence. -/
def play (env : SessionEnv) : List Ev × PlayResult :=
  let r := runItems env.cfg env.items false false
  match r.2.2.2 with
  | .panicked k => (r.1, .panic k)
  | .outOfEnv => (r.1, .incomplete)
  | .cmdNone => (r.1 ++ shutdownEvents r.2.2.1 env, .done .cmdNone)
  | .itemsEnd => (r.1 ++ shutdownEvents r.2.2.1 env, .done .itemsEnd)
  | .encFail => (r.1 ++ shutdownEvents r.2.2.1 env, .done .encFail)

/-! ## Trace observations -/

/-- All bytes accepted by the encoder's stdin, in trace order. -/
def encBytes : List Ev → List Nat
  | [] => []
  | .writeEnc bs :: tr => bs ++ encBytes tr
  | _ :: tr => encBytes tr

/-- Number of decoder-termination requests in a trace. -/
def countTermReq : List Ev → Nat
  | [] => 0
  | .termReq _ :: tr => countTermReq tr + 1
  | _ :: tr => countTermReq tr

/-- Number of writes of `true` to the playlist init flag in a trace. -/
def countSetInit : List Ev → Nat
  | [] => 0
  | .setInit :: tr => countSetInit tr + 1
  | _ :: tr => countSetInit tr

/-- Number of decoder reads in a trace. -/
def countReadDec : List Ev → Nat
  | [] => 0
  | .readDec _ :: tr => countReadDec tr + 1
  | _ :: tr => countReadDec tr

/-- Number of decoder spawns in a trace. -/
def countSpawn : List Ev → Nat
  | [] => 0
  | .spawnDec _ :: tr => countSpawn tr + 1
  | _ :: tr => countSpawn tr

/-- Number of ingest chunks received (`try_recv` returning `Ok`) in a trace. -/
def countRecv : List Ev → Nat
  | [] => 0
  | .recvChunk _ :: tr => countRecv tr + 1
  | _ :: tr => countRecv tr

/-- The `is_terminated` flag after a trace, starting from `b`: only
`setTerminated` (line 214) ever writes it, and it writes `true`. -/
def terminatedAfter (tr : List Ev) (b : Bool) : Bool :=
  tr.foldl (fun acc e => match e with | .setTerminated => true | _ => acc) b

/-- Worded from the spec (claim C1): "the concatenation, in read order, of all
non-empty decoder reads for that item" — reads stop at the first empty (or
failed) read, where the loop leaves the item. -/
def specConcatReads : List IterEnv → List Nat
  | [] => []
  | e :: rest =>
    match e.decRead with
    | .ok [] => []
    | .ok bs => bs ++ specConcatReads rest
    | .error _ => []

/-- Worded from the amended claim C1: "the concatenation, in read order, of
the write-accepted prefixes of the non-empty decoder reads" of the item.
For each non-empty successful read forwarded by `write` (line 193) the
encoder's pipe accepts a prefix of `n` bytes (`bs.take n`); reads stop at the
first empty read (the loop leaves the item), at a read error (panic) and at a
failed write (the session ends), none of which put bytes on the stream. -/
def specAcceptedPrefixes : List IterEnv → List Nat
  | [] => []
  | e :: rest =>
    match e.decRead with
    | .ok [] => []
    | .ok bs =>
      match e.decWrite with
      | .ok n => bs.take n ++ specAcceptedPrefixes rest
      | .error _ => []
    | .error _ => []

/-- The events the takeover block (lines 175-191) emits, as a function of
`kill_dec`, the slot state, the terminate result and ingest-mode: request and
success-log when the slot is populated, then the init-flag write in playlist
mode; nothing once `kill_dec` is false. -/
def takeoverEvs (hi kd slot tq : Bool) : List Ev :=
  if kd then
    (if slot then
      Ev.termReq tq :: (if tq then [Ev.logSwitchToLive] else [])
    else [])
    ++ (if hi then [Ev.setInit] else [])
  else []

/-- An iteration environment in which the loop stays in the scheduled branch
(lines 192-197) and succeeds: no ingest pending, a non-empty successful read,
a successful (possibly partial) write. -/
def schedIter (e : IterEnv) : Prop :=
  e.ingest = none ∧ (∃ bs, e.decRead = .ok bs ∧ bs ≠ []) ∧
    ∃ n, e.decWrite = .ok n

/-- An iteration with no ingest pending whose read succeeds and whose encoder
write (if one happens, i.e. the read was non-empty) accepts the whole
buffer. -/
def fullPassIterB (e : IterEnv) : Bool :=
  e.ingest.isNone &&
    match e.decRead with
    | .error _ => false
    | .ok bs =>
      bs.isEmpty ||
        match e.decWrite with
        | .ok n => decide (bs.length ≤ n)
        | .error _ => false

/-! ### Concrete scenario environments used by witnesses/counterexamples -/

/-- A run with no ingest in which the encoder's pipe accepts only 2 of the 4
bytes handed to `write` (a partial write the `std::io::Write` contract
permits, and whose count line 193 ignores). -/
def c1BadIters : List IterEnv :=
  [⟨.ok [1, 2, 3, 4], none, true, .ok 2, true⟩,
   ⟨.ok [], none, true, .ok 0, true⟩]

/-- The spec's scenario: decoder chunks of sizes 1000, 1000, 500, then EOF. -/
def c1Read1 : List Nat := List.replicate 1000 1

/-- Second scenario chunk. -/
def c1Read2 : List Nat := List.replicate 1000 2

/-- Third scenario chunk. -/
def c1Read3 : List Nat := List.replicate 500 3

/-- Scenario iteration environments: three full reads then EOF, no ingest,
every write accepted in full. -/
def c1Iters : List IterEnv :=
  [⟨.ok c1Read1, none, true, .ok bufLen, true⟩,
   ⟨.ok c1Read2, none, true, .ok bufLen, true⟩,
   ⟨.ok c1Read3, none, true, .ok bufLen, true⟩,
   ⟨.ok [], none, true, .ok 0, true⟩]

/-- Scenario item: command `["-i", "a.mp4"]`, playable, trivial filter. -/
def c1Media : Media :=
  ⟨some ["-i", "a.mp4"], some true, some [], "a.mp4"⟩

/-- Scenario per-item environment: spawn, terminator and reap all succeed. -/
def c1ItemEnv : ItemEnv := ⟨true, true, c1Iters, true⟩

/-- Scenario session configuration. -/
def c1Cfg : Cfg := ⟨"level+info", ["-c:v", "mpeg2video"], false⟩

/-- A session with one skip-only item then a command-less item. -/
def c5Env : SessionEnv :=
  ⟨⟨"level+info", ["-c:v", "mpeg2video"], false⟩, true, false, true, true,
   true,
   [(⟨some ["-i", "gap.mp4"], some false, some [], "gap.mp4"⟩,
     ⟨true, true, [], true⟩),
    (⟨none, none, none, "end"⟩, ⟨true, true, [], true⟩)]⟩

/-- A session whose single item has no command and absent playable flag. -/
def c10Env : SessionEnv :=
  ⟨⟨"level+info", [], false⟩, true, false, true, true, true,
   [(⟨none, none, none, "gap"⟩, ⟨true, true, [], true⟩)]⟩

/-- One non-empty read, then EOF with no ingest: a normal handback run. -/
def c3EofIters : List IterEnv :=
  [⟨.ok [1], none, true, .ok 1, true⟩,
   ⟨.ok [], none, true, .ok 0, true⟩]

/-- A takeover whose decoder-termination request fails (`terminate()`
returns `Err`), followed by a normal EOF handback. -/
def c8Iters : List IterEnv :=
  [⟨.ok [5], some [9], true, .ok 0, false⟩,
   ⟨.ok [], none, true, .ok 0, true⟩]

/-- One scheduled iteration, then the first ingest chunk arrives, then EOF. -/
def c2Iters : List IterEnv :=
  [⟨.ok [1], none, true, .ok 1, true⟩,
   ⟨.ok [2], some [9], true, .ok 0, true⟩,
   ⟨.ok [], none, true, .ok 0, true⟩]

/-- A session whose first item fails its very first encoder write (the
ingest `write_all` errs), followed by a second playable item that would
spawn a decoder if it were ever reached. -/
def c4Env : SessionEnv :=
  ⟨⟨"level+info", ["-c:v", "mpeg2video"], false⟩, true, true, true, true,
   true,
   [(⟨some ["-i", "a.mp4"], some true, some [], "a.mp4"⟩,
     ⟨true, true, [⟨.ok [1], some [9], false, .ok 1, true⟩], true⟩),
    (⟨some ["-i", "b.mp4"], some true, some [], "b.mp4"⟩,
     ⟨true, true, [⟨.ok [], none, true, .ok 0, true⟩], true⟩)]⟩

/-! ## Basic lemmas about trace observations -/

theorem encBytes_append (a b : List Ev) :
    encBytes (a ++ b) = encBytes a ++ encBytes b := by
  induction a with
  | nil => simp [encBytes]
  | cons e tr ih => cases e <;> simp [encBytes, ih]

theorem countTermReq_append (a b : List Ev) :
    countTermReq (a ++ b) = countTermReq a + countTermReq b := by
  induction a with
  | nil => simp [countTermReq]
  | cons e tr ih => cases e <;> simp [countTermReq, ih] <;> omega

theorem countSetInit_append (a b : List Ev) :
    countSetInit (a ++ b) = countSetInit a + countSetInit b := by
  induction a with
  | nil => simp [countSetInit]
  | cons e tr ih => cases e <;> simp [countSetInit, ih] <;> omega

theorem countReadDec_append (a b : List Ev) :
    countReadDec (a ++ b) = countReadDec a + countReadDec b := by
  induction a with
  | nil => simp [countReadDec]
  | cons e tr ih => cases e <;> simp [countReadDec, ih] <;> omega

theorem countSpawn_append (a b : List Ev) :
    countSpawn (a ++ b) = countSpawn a + countSpawn b := by
  induction a with
  | nil => simp [countSpawn]
  | cons e tr ih => cases e <;> simp [countSpawn, ih] <;> omega

theorem terminatedAfter_true (tr : List Ev) : terminatedAfter tr true = true := by
  induction tr with
  | nil => rfl
  | cons e tr ih => cases e <;> simpa [terminatedAfter] using ih

/-! ## Case-unfolding lemmas for the inner forwarding loop -/

theorem runIters_cons_readErr (hi : Bool) (e : IterEnv) (rest : List IterEnv)
    (lo kd slot : Bool) (h : e.decRead = .error ()) :
    runIters hi (e :: rest) lo kd slot =
      ([.readDec (.error ())], lo, .panicRead) := by
  simp [runIters, h]

theorem runIters_cons_live (hi : Bool) (e : IterEnv) (rest : List IterEnv)
    (lo kd slot : Bool) (bs chunk : List Nat)
    (hr : e.decRead = .ok bs) (hc : e.ingest = some chunk)
    (hw : e.ingestWriteOk = true) :
    runIters hi (e :: rest) lo kd slot =
      (Ev.readDec (.ok bs) :: Ev.recvChunk chunk :: Ev.writeEnc chunk ::
        takeoverEvs hi kd slot e.termOk ++ (runIters hi rest true false slot).1,
       (runIters hi rest true false slot).2) := by
  simp [runIters, takeoverEvs, hr, hc, hw]

theorem runIters_cons_liveFail (hi : Bool) (e : IterEnv) (rest : List IterEnv)
    (lo kd slot : Bool) (bs chunk : List Nat)
    (hr : e.decRead = .ok bs) (hc : e.ingest = some chunk)
    (hw : e.ingestWriteOk = false) :
    runIters hi (e :: rest) lo kd slot =
      ([.readDec (.ok bs), .recvChunk chunk, .writeEncFail], lo, .encFail) := by
  simp [runIters, hr, hc, hw]

theorem runIters_cons_sched (hi : Bool) (e : IterEnv) (rest : List IterEnv)
    (lo kd slot : Bool) (bs : List Nat) (n : Nat)
    (hr : e.decRead = .ok bs) (hc : e.ingest = none) (hbs : bs ≠ [])
    (hw : e.decWrite = .ok n) :
    runIters hi (e :: rest) lo kd slot =
      (Ev.readDec (.ok bs) :: Ev.writeEnc (bs.take n) ::
        (runIters hi rest lo kd slot).1,
       (runIters hi rest lo kd slot).2) := by
  simp [runIters, hr, hc, hw, List.length_pos, hbs]

theorem runIters_cons_schedFail (hi : Bool) (e : IterEnv) (rest : List IterEnv)
    (lo kd slot : Bool) (bs : List Nat)
    (hr : e.decRead = .ok bs) (hc : e.ingest = none) (hbs : bs ≠ [])
    (hw : e.decWrite = .error ()) :
    runIters hi (e :: rest) lo kd slot =
      ([.readDec (.ok bs), .writeEncFail], lo, .encFail) := by
  simp [runIters, hr, hc, hw, List.length_pos, hbs]

theorem runIters_cons_eof (hi : Bool) (e : IterEnv) (rest : List IterEnv)
    (lo kd slot : Bool)
    (hr : e.decRead = .ok []) (hc : e.ingest = none) :
    runIters hi (e :: rest) lo kd slot =
      (if lo then ([.readDec (.ok []), .logSwitchFromLive], false, .eof)
       else ([.readDec (.ok [])], lo, .eof)) := by
  simp [runIters, hr, hc]

theorem countRecv_append (a b : List Ev) :
    countRecv (a ++ b) = countRecv a + countRecv b := by
  induction a with
  | nil => simp [countRecv]
  | cons e tr ih => cases e <;> simp [countRecv, ih] <;> omega

/-- Once `kill_dec` is false, no later iteration of the same item requests
decoder termination, sets the init flag, or logs the switch-to-live line:
the takeover block of lines 177-191 is guarded by `kill_dec`. -/
theorem runIters_kdFalse (hi : Bool) (iters : List IterEnv) :
    ∀ (lo slot : Bool),
      countTermReq (runIters hi iters lo false slot).1 = 0 ∧
      countSetInit (runIters hi iters lo false slot).1 = 0 ∧
      Ev.logSwitchToLive ∉ (runIters hi iters lo false slot).1 := by
  induction iters with
  | nil => intro lo slot; simp [runIters, countTermReq, countSetInit]
  | cons e rest ih =>
    intro lo slot
    cases he : e.decRead with
    | error u =>
      cases u
      rw [runIters_cons_readErr hi e rest lo false slot he]
      simp [countTermReq, countSetInit]
    | ok bs =>
      cases hc : e.ingest with
      | some chunk =>
        cases hw : e.ingestWriteOk with
        | false =>
          rw [runIters_cons_liveFail hi e rest lo false slot bs chunk he hc hw]
          simp [countTermReq, countSetInit]
        | true =>
          rw [runIters_cons_live hi e rest lo false slot bs chunk he hc hw]
          have h := ih true slot
          simp [takeoverEvs, countTermReq, countSetInit, countTermReq_append,
            countSetInit_append]
          exact ⟨h.1, h.2.1, h.2.2⟩
      | none =>
        by_cases hbs : bs = []
        · subst hbs
          rw [runIters_cons_eof hi e rest lo false slot he hc]
          cases lo <;> simp [countTermReq, countSetInit]
        · cases hw : e.decWrite with
          | error u =>
            cases u
            rw [runIters_cons_schedFail hi e rest lo false slot bs he hc hbs hw]
            simp [countTermReq, countSetInit]
          | ok n =>
            rw [runIters_cons_sched hi e rest lo false slot bs n he hc hbs hw]
            have h := ih lo slot
            simp [countTermReq, countSetInit]
            exact ⟨h.1, h.2.1, h.2.2⟩

/-- A prefix of successful scheduled iterations passes straight through: it
contributes only read/write events and leaves `live_on`, `kill_dec`, the slot
and the rest of the run unchanged. -/
theorem runIters_sched_passthrough (hi : Bool) (pre : List IterEnv) :
    ∀ (rest : List IterEnv) (lo kd slot : Bool),
      (∀ x ∈ pre, schedIter x) →
      ∃ t0 : List Ev,
        (runIters hi (pre ++ rest) lo kd slot).1 =
          t0 ++ (runIters hi rest lo kd slot).1 ∧
        (runIters hi (pre ++ rest) lo kd slot).2 =
          (runIters hi rest lo kd slot).2 ∧
        countTermReq t0 = 0 ∧ countSetInit t0 = 0 ∧
        countReadDec t0 = pre.length ∧ countRecv t0 = 0 ∧
        Ev.logSwitchToLive ∉ t0 := by
  induction pre with
  | nil =>
    intro rest lo kd slot _
    exact ⟨[], by simp [countTermReq, countSetInit, countReadDec, countRecv]⟩
  | cons e pre' ih =>
    intro rest lo kd slot hall
    obtain ⟨hc, ⟨bs, hr, hbs⟩, n, hw⟩ := hall e (List.mem_cons_self e pre')
    obtain ⟨t0', h1, h2, h3, h4, h5, h6, h7⟩ :=
      ih rest lo kd slot (fun x hx => hall x (List.mem_cons_of_mem e hx))
    refine ⟨Ev.readDec (.ok bs) :: Ev.writeEnc (bs.take n) :: t0', ?_⟩
    rw [List.cons_append,
      runIters_cons_sched hi e (pre' ++ rest) lo kd slot bs n hr hc hbs hw]
    simp [h1, h2, countTermReq, countSetInit, countReadDec, countRecv, h3, h4,
      h5, h6, h7]

/-! ## Claim C1: pass-through of decoder bytes without ingest -/

theorem specConcatReads_cons_ok (e : IterEnv) (rest : List IterEnv)
    (bs : List Nat) (h : e.decRead = .ok bs) (hbs : bs ≠ []) :
    specConcatReads (e :: rest) = bs ++ specConcatReads rest := by
  cases bs with
  | nil => exact absurd rfl hbs
  | cons b tl => simp [specConcatReads, h]

theorem specConcatReads_cons_nil (e : IterEnv) (rest : List IterEnv)
    (h : e.decRead = .ok []) :
    specConcatReads (e :: rest) = [] := by
  simp [specConcatReads, h]

theorem specAcceptedPrefixes_cons_err (e : IterEnv) (rest : List IterEnv)
    (h : e.decRead = .error ()) :
    specAcceptedPrefixes (e :: rest) = [] := by
  simp [specAcceptedPrefixes, h]

theorem specAcceptedPrefixes_cons_nil (e : IterEnv) (rest : List IterEnv)
    (h : e.decRead = .ok []) :
    specAcceptedPrefixes (e :: rest) = [] := by
  simp [specAcceptedPrefixes, h]

theorem specAcceptedPrefixes_cons_wfail (e : IterEnv) (rest : List IterEnv)
    (bs : List Nat) (h : e.decRead = .ok bs) (hbs : bs ≠ [])
    (hw : e.decWrite = .error ()) :
    specAcceptedPrefixes (e :: rest) = [] := by
  cases bs with
  | nil => exact absurd rfl hbs
  | cons b tl => simp [specAcceptedPrefixes, h, hw]

theorem specAcceptedPrefixes_cons_ok (e : IterEnv) (rest : List IterEnv)
    (bs : List Nat) (n : Nat) (h : e.decRead = .ok bs) (hbs : bs ≠ [])
    (hw : e.decWrite = .ok n) :
    specAcceptedPrefixes (e :: rest) =
      bs.take n ++ specAcceptedPrefixes rest := by
  cases bs with
  | nil => exact absurd rfl hbs
  | cons b tl => simp [specAcceptedPrefixes, h, hw]

/-- Claim C1, amended.  First part: in EVERY run with no ingest activity —
whatever the reads and however much of each buffer the encoder's `write`
accepts, partial and failing writes included — the bytes written to the
encoder are exactly the concatenation, in read order, of the write-accepted
prefixes of the non-empty decoder reads.  Second part: when every write
accepts its whole buffer, that concatenation is exactly the concatenation of
all non-empty decoder reads.  (The accepted-prefix weakening is forced
because line 193 uses `write`, whose accepted count may be smaller than the
buffer, and ignores it: see `claim_C1_counterexample`.) -/
theorem claim_C1_amended (hi : Bool) (iters : List IterEnv)
    (lo kd slot : Bool) :
    ((∀ e ∈ iters, e.ingest = none) →
      encBytes (runIters hi iters lo kd slot).1 =
        specAcceptedPrefixes iters) ∧
    ((∀ e ∈ iters, fullPassIterB e = true) →
      specAcceptedPrefixes iters = specConcatReads iters) := by
  constructor
  · induction iters with
    | nil => intro _; simp [runIters, encBytes, specAcceptedPrefixes]
    | cons e rest ih =>
      intro h
      have hc : e.ingest = none := h e (List.mem_cons_self e rest)
      have hrest := ih (fun x hx => h x (List.mem_cons_of_mem e hx))
      cases he : e.decRead with
      | error u =>
        cases u
        rw [runIters_cons_readErr hi e rest lo kd slot he,
          specAcceptedPrefixes_cons_err e rest he]
        simp [encBytes]
      | ok bs =>
        cases bs with
        | nil =>
          rw [runIters_cons_eof hi e rest lo kd slot he hc,
            specAcceptedPrefixes_cons_nil e rest he]
          cases lo <;> simp [encBytes]
        | cons b tl =>
          cases hw : e.decWrite with
          | error u =>
            cases u
            rw [runIters_cons_schedFail hi e rest lo kd slot (b :: tl) he hc
                (by simp) hw,
              specAcceptedPrefixes_cons_wfail e rest (b :: tl) he (by simp)
                hw]
            simp [encBytes]
          | ok n =>
            rw [runIters_cons_sched hi e rest lo kd slot (b :: tl) n he hc
                (by simp) hw,
              specAcceptedPrefixes_cons_ok e rest (b :: tl) n he (by simp)
                hw]
            simp [encBytes, hrest]
  · induction iters with
    | nil => intro _; rfl
    | cons e rest ih =>
      intro h
      have he' := h e (List.mem_cons_self e rest)
      have hrest := ih (fun x hx => h x (List.mem_cons_of_mem e hx))
      cases he : e.decRead with
      | error u => cases u; simp [fullPassIterB, he] at he'
      | ok bs =>
        cases bs with
        | nil =>
          rw [specAcceptedPrefixes_cons_nil e rest he,
            specConcatReads_cons_nil e rest he]
        | cons b tl =>
          cases hw : e.decWrite with
          | error u => cases u; simp [fullPassIterB, he, hw] at he'
          | ok n =>
            have hlen : (b :: tl).length ≤ n := by
              have h2 := he'
              simp [fullPassIterB, he, hw] at h2
              exact h2.2
            rw [specAcceptedPrefixes_cons_ok e rest (b :: tl) n he (by simp)
                hw,
              specConcatReads_cons_ok e rest (b :: tl) he (by simp),
              List.take_of_length_le hlen, hrest]

/-- Claim C1 as stated is false: in this ingest-free run the encoder receives
`[1, 2]`, not the full concatenation `[1, 2, 3, 4]` of the decoder reads. -/
theorem claim_C1_counterexample :
    (∀ e ∈ c1BadIters, e.ingest = none) ∧
    encBytes (runIters false c1BadIters false true true).1 = [1, 2] ∧
    specConcatReads c1BadIters = [1, 2, 3, 4] ∧
    encBytes (runIters false c1BadIters false true true).1 ≠
      specConcatReads c1BadIters := by
  decide

theorem c1Read1_length : c1Read1.length = 1000 := by
  rw [c1Read1]; exact List.length_replicate 1000 1

theorem c1Read2_length : c1Read2.length = 1000 := by
  rw [c1Read2]; exact List.length_replicate 1000 2

theorem c1Read3_length : c1Read3.length = 500 := by
  rw [c1Read3]; exact List.length_replicate 500 3

theorem c1Read1_ne_nil : c1Read1 ≠ [] := by
  intro hc
  have h := c1Read1_length
  rw [hc] at h
  simp at h

theorem c1Read2_ne_nil : c1Read2 ≠ [] := by
  intro hc
  have h := c1Read2_length
  rw [hc] at h
  simp at h

theorem c1Read3_ne_nil : c1Read3 ≠ [] := by
  intro hc
  have h := c1Read3_length
  rw [hc] at h
  simp at h

/-- The C1 scenario environments satisfy the full-pass condition. -/
theorem c1Iters_fullPass : ∀ e ∈ c1Iters, fullPassIterB e = true := by
  intro e he
  simp only [c1Iters, List.mem_cons, List.not_mem_nil, or_false] at he
  rcases he with rfl | rfl | rfl | rfl
  · have h1 : c1Read1.length ≤ bufLen := by
      rw [c1Read1_length, bufLen]; norm_num
    simp [fullPassIterB, h1]
  · have h1 : c1Read2.length ≤ bufLen := by
      rw [c1Read2_length, bufLen]; norm_num
    simp [fullPassIterB, h1]
  · have h1 : c1Read3.length ≤ bufLen := by
      rw [c1Read3_length, bufLen]; norm_num
    simp [fullPassIterB, h1]
  · rfl

/-- The concatenated scenario reads. -/
theorem c1_specConcat :
    specConcatReads c1Iters = c1Read1 ++ c1Read2 ++ c1Read3 := by
  show specConcatReads
      (⟨.ok c1Read1, none, true, .ok bufLen, true⟩ ::
       ⟨.ok c1Read2, none, true, .ok bufLen, true⟩ ::
       ⟨.ok c1Read3, none, true, .ok bufLen, true⟩ ::
       [⟨.ok [], none, true, .ok 0, true⟩]) = _
  rw [specConcatReads_cons_ok _ _ _ rfl c1Read1_ne_nil,
    specConcatReads_cons_ok _ _ _ rfl c1Read2_ne_nil,
    specConcatReads_cons_ok _ _ _ rfl c1Read3_ne_nil,
    specConcatReads_cons_nil _ _ rfl]
  simp

/-- The inner run of the C1 scenario, computed symbolically. -/
theorem c1_run :
    runIters false c1Iters false true true =
      ([Ev.readDec (.ok c1Read1), Ev.writeEnc (c1Read1.take bufLen),
        Ev.readDec (.ok c1Read2), Ev.writeEnc (c1Read2.take bufLen),
        Ev.readDec (.ok c1Read3), Ev.writeEnc (c1Read3.take bufLen),
        Ev.readDec (.ok [])], false, .eof) := by
  show runIters false
      (⟨.ok c1Read1, none, true, .ok bufLen, true⟩ ::
       ⟨.ok c1Read2, none, true, .ok bufLen, true⟩ ::
       ⟨.ok c1Read3, none, true, .ok bufLen, true⟩ ::
       [⟨.ok [], none, true, .ok 0, true⟩]) false true true = _
  rw [runIters_cons_sched false _ _ false true true c1Read1 bufLen rfl rfl
      c1Read1_ne_nil rfl,
    runIters_cons_sched false _ _ false true true c1Read2 bufLen rfl rfl
      c1Read2_ne_nil rfl,
    runIters_cons_sched false _ _ false true true c1Read3 bufLen rfl rfl
      c1Read3_ne_nil rfl,
    runIters_cons_eof false _ _ false true true rfl rfl]
  simp

/-- Witness: the amended C1's general clause holds on the concrete
partial-write run (`write` accepts 2 of 4 bytes, the stream receives exactly
the accepted prefix), and on the 1000/1000/500 full-write scenario it yields
exactly the 2500 bytes in read order; the inner loop exits at EOF and the
decoder is reaped (`waitDec`), after which the item loop ends normally. -/
theorem claim_C1_witness :
    encBytes (runIters false c1BadIters false true true).1 =
      specAcceptedPrefixes c1BadIters ∧
    specAcceptedPrefixes c1BadIters = [1, 2] ∧
    encBytes (runIters false c1Iters false true true).1 =
      c1Read1 ++ c1Read2 ++ c1Read3 ∧
    (encBytes (runIters false c1Iters false true true).1).length = 2500 ∧
    (runIters false c1Iters false true true).2.2 = ItemExit.eof ∧
    Ev.waitDec ∈ (runItems c1Cfg [(c1Media, c1ItemEnv)] false false).1 ∧
    (runItems c1Cfg [(c1Media, c1ItemEnv)] false false).2.2.2 =
      LoopExit.itemsEnd := by
  have hgen := (claim_C1_amended false c1Iters false true true).1 (by decide)
  have hfull :=
    (claim_C1_amended false c1Iters false true true).2 c1Iters_fullPass
  have h := hgen.trans (hfull.trans c1_specConcat)
  have hitems :
      runItems c1Cfg [(c1Media, c1ItemEnv)] false false =
        (Ev.logPlay "a.mp4" ::
          Ev.spawnDec (decCmdSource c1Cfg.ffLogFormat ["-i", "a.mp4"] []
            c1Cfg.decSettings) ::
          (runIters false c1Iters false true true).1 ++ [Ev.waitDec],
         false, true, .itemsEnd) := by
    show runItems c1Cfg [(c1Media, c1ItemEnv)] false false = _
    rw [runItems, c1_run]
    simp [c1Media, c1ItemEnv, c1Cfg, runItems, c1_run]
  refine ⟨(claim_C1_amended false c1BadIters false true true).1 (by decide),
    by decide, h, ?_, by rw [c1_run], ?_, ?_⟩
  · rw [h]
    rw [List.length_append, List.length_append, c1Read1_length,
      c1Read2_length, c1Read3_length]
  · rw [hitems]
    simp
  · rw [hitems]

/-! ## Case-unfolding lemmas for the item loop -/

/-- An item with no command breaks the `'source_iter` loop (lines 106-109). -/
theorem runItems_cons_cmdNone (cfg : Cfg) (m : Media) (ie : ItemEnv)
    (rest : List (Media × ItemEnv)) (lo slot : Bool) (h : m.cmd = none) :
    runItems cfg ((m, ie) :: rest) lo slot = ([], lo, slot, .cmdNone) := by
  simp [runItems, h]

/-- An item with `process = Some(false)` is skipped with no events
(lines 111-113). -/
theorem runItems_cons_skip (cfg : Cfg) (m : Media) (ie : ItemEnv)
    (rest : List (Media × ItemEnv)) (lo slot : Bool) (c : List String)
    (hc : m.cmd = some c) (hp : m.process = some false) :
    runItems cfg ((m, ie) :: rest) lo slot = runItems cfg rest lo slot := by
  simp [runItems, hc, hp]

/-- An item with `process = None` hits `unwrap` on `None` (line 111). -/
theorem runItems_cons_processNone (cfg : Cfg) (m : Media) (ie : ItemEnv)
    (rest : List (Media × ItemEnv)) (lo slot : Bool) (c : List String)
    (hc : m.cmd = some c) (hp : m.process = none) :
    runItems cfg ((m, ie) :: rest) lo slot =
      ([], lo, slot, .panicked .processNone) := by
  simp [runItems, hc, hp]

/-- A playable item with `filter = None` hits `unwrap` on `None`
(line 121), after the line-115 log. -/
theorem runItems_cons_filterNone (cfg : Cfg) (m : Media) (ie : ItemEnv)
    (rest : List (Media × ItemEnv)) (lo slot : Bool) (c : List String)
    (hc : m.cmd = some c) (hp : m.process = some true) (hf : m.filter = none) :
    runItems cfg ((m, ie) :: rest) lo slot =
      ([.logPlay m.source], lo, slot, .panicked .filterNone) := by
  simp [runItems, hc, hp, hf]

/-- A playable item with a filter and a successful spawn runs the decoder:
the item's trace starts with the play log and the spawn of the composed
decoder command, then continues with the inner loop (lines 115-211). -/
theorem runItems_cons_play (cfg : Cfg) (m : Media) (ie : ItemEnv)
    (rest : List (Media × ItemEnv)) (lo slot : Bool) (c f : List String)
    (hc : m.cmd = some c) (hp : m.process = some true)
    (hf : m.filter = some f) (hs : ie.spawnOk = true) :
    runItems cfg ((m, ie) :: rest) lo slot =
      (let r := runIters cfg.hasInit ie.iters lo true ie.termAcquire
       let head := [Ev.logPlay m.source,
         Ev.spawnDec (decCmdSource cfg.ffLogFormat c f cfg.decSettings)]
       match r.2.2 with
       | .eof =>
         if ie.waitOk then
           let r' := runItems cfg rest r.2.1 ie.termAcquire
           (head ++ r.1 ++ Ev.waitDec :: r'.1, r'.2)
         else
           (head ++ r.1, r.2.1, ie.termAcquire, .panicked .waitErr)
       | .encFail => (head ++ r.1, r.2.1, ie.termAcquire, .encFail)
       | .panicRead => (head ++ r.1, r.2.1, ie.termAcquire, .panicked .readErr)
       | .outOfEnv => (head ++ r.1, r.2.1, ie.termAcquire, .outOfEnv)) := by
  simp [runItems, hc, hp, hf, hs]

/-- A prefix of skip-only items (command present, `playable=false`)
contributes nothing at all to the run. -/
theorem runItems_skip_run (cfg : Cfg) (skips : List (Media × ItemEnv)) :
    ∀ (rest : List (Media × ItemEnv)) (lo slot : Bool),
      (∀ p ∈ skips, (∃ c, p.1.cmd = some c) ∧ p.1.process = some false) →
      runItems cfg (skips ++ rest) lo slot = runItems cfg rest lo slot := by
  induction skips with
  | nil => intro rest lo slot _; rfl
  | cons p skips' ih =>
    intro rest lo slot h
    obtain ⟨⟨c, hc⟩, hp⟩ := h p (List.mem_cons_self p skips')
    obtain ⟨m, ie⟩ := p
    rw [List.cons_append, runItems_cons_skip cfg m ie _ lo slot c hc hp]
    exact ih rest lo slot (fun x hx => h x (List.mem_cons_of_mem _ hx))

/-- The shutdown sequence spawns no decoder. -/
theorem countSpawn_shutdownEvents (s : Bool) (env : SessionEnv) :
    countSpawn (shutdownEvents s env) = 0 := by
  rw [shutdownEvents]
  split_ifs <;> simp [countSpawn_append, countSpawn]

/-! ## Claim C5: skip-only items spawn nothing; command-less item ends session -/

/-- Claim C5: a sequence of items with `playable=false` spawns no decoder and
contributes no events (the loop `continue`s straight to the next item); an
item with no command ends the session, so skip-items followed by a
command-less item give a session with zero decoder spawns that ends with the
normal `cmdNone` exit — through to `play`'s shutdown. -/
theorem claim_C5_skip_only (env : SessionEnv)
    (skips rest : List (Media × ItemEnv)) (m0 : Media) (ie0 : ItemEnv)
    (lo slot : Bool)
    (hskips : ∀ p ∈ skips, (∃ c, p.1.cmd = some c) ∧ p.1.process = some false)
    (hm0 : m0.cmd = none)
    (hitems : env.items = skips ++ (m0, ie0) :: rest) :
    runItems env.cfg (skips ++ rest) lo slot = runItems env.cfg rest lo slot ∧
    runItems env.cfg (skips ++ (m0, ie0) :: rest) lo slot =
      ([], lo, slot, .cmdNone) ∧
    (play env).2 = .done .cmdNone ∧
    countSpawn (play env).1 = 0 := by
  have h1 := runItems_skip_run env.cfg skips rest lo slot hskips
  have h2 : runItems env.cfg (skips ++ (m0, ie0) :: rest) lo slot =
      ([], lo, slot, .cmdNone) := by
    rw [runItems_skip_run env.cfg skips _ lo slot hskips,
      runItems_cons_cmdNone env.cfg m0 ie0 rest lo slot hm0]
  have h2' : runItems env.cfg env.items false false =
      ([], false, false, .cmdNone) := by
    rw [hitems, runItems_skip_run env.cfg skips _ false false hskips,
      runItems_cons_cmdNone env.cfg m0 ie0 rest false false hm0]
  refine ⟨h1, h2, ?_, ?_⟩
  · rw [play, h2']
  · rw [play, h2']
    simpa [countSpawn, countSpawn_append] using
      countSpawn_shutdownEvents false env

/-- Witness for C5 at the concrete two-item session. -/
theorem claim_C5_witness :
    (play c5Env).2 = .done .cmdNone ∧ countSpawn (play c5Env).1 = 0 := by
  have h := claim_C5_skip_only c5Env
    [(⟨some ["-i", "gap.mp4"], some false, some [], "gap.mp4"⟩,
      ⟨true, true, [], true⟩)]
    [] (⟨none, none, none, "end"⟩) (⟨true, true, [], true⟩) false false
    (by intro p hp; simp at hp; subst hp; exact ⟨⟨_, rfl⟩, rfl⟩)
    rfl rfl
  exact ⟨h.2.2.1, h.2.2.2⟩

/-! ## Claim C6: decoder argument list composition -/

/-- Claim C6: the decoder is spawned with exactly the fixed diagnostic flags,
then the item's command, then the filter arguments (only when the filter list
has more than one entry), then the global decode settings, in that order
(lines 122-134). -/
theorem claim_C6_dec_cmd (cfg : Cfg) (m : Media) (ie : ItemEnv)
    (rest : List (Media × ItemEnv)) (lo slot : Bool) (c f : List String)
    (hc : m.cmd = some c) (hp : m.process = some true)
    (hf : m.filter = some f) (hs : ie.spawnOk = true) :
    decCmdSource cfg.ffLogFormat c f cfg.decSettings =
      ["-hide_banner", "-nostats", "-v", cfg.ffLogFormat] ++ c ++
        (if f.length > 1 then f else []) ++ cfg.decSettings ∧
    ∃ t, (runItems cfg ((m, ie) :: rest) lo slot).1 =
      Ev.logPlay m.source ::
        Ev.spawnDec (decCmdSource cfg.ffLogFormat c f cfg.decSettings) :: t := by
  constructor
  · by_cases hlen : f.length > 1 <;> simp [decCmdSource, decCmdSpec, hlen]
  · rw [runItems_cons_play cfg m ie rest lo slot c f hc hp hf hs]
    rcases hex : (runIters cfg.hasInit ie.iters lo true ie.termAcquire).2.2 with
      _ | _ | _ | _ <;> simp [hex] <;> cases hw : ie.waitOk <;> simp [hw]

/-- Witness for C6: a playable item with a two-entry filter chain. -/
theorem claim_C6_witness :
    decCmdSource "level+info" ["-i", "a.mp4"] ["-filter_complex", "anull"]
        ["-c:v", "mpeg2video"] =
      ["-hide_banner", "-nostats", "-v", "level+info"] ++ ["-i", "a.mp4"] ++
        ["-filter_complex", "anull"] ++ ["-c:v", "mpeg2video"] ∧
    ∃ t,
      (runItems ⟨"level+info", ["-c:v", "mpeg2video"], false⟩
          [(⟨some ["-i", "a.mp4"], some true,
             some ["-filter_complex", "anull"], "a.mp4"⟩,
            ⟨true, true, [], true⟩)] false false).1 =
        Ev.logPlay "a.mp4" ::
          Ev.spawnDec (decCmdSource "level+info" ["-i", "a.mp4"]
            ["-filter_complex", "anull"] ["-c:v", "mpeg2video"]) :: t := by
  have h := claim_C6_dec_cmd ⟨"level+info", ["-c:v", "mpeg2video"], false⟩
    (⟨some ["-i", "a.mp4"], some true, some ["-filter_complex", "anull"],
      "a.mp4"⟩)
    (⟨true, true, [], true⟩) [] false false
    ["-i", "a.mp4"] ["-filter_complex", "anull"] rfl rfl rfl rfl
  exact ⟨by simpa using h.1, h.2⟩

/-! ## Claim C10: unwrap panics on absent playable flag / filter -/

/-- Claim C10 as stated is false for items with an absent playable flag but
no command: the command check (line 106-109) breaks out of the loop first,
so the session ends normally and `node.process.unwrap()` is never reached. -/
theorem claim_C10_counterexample :
    (⟨none, none, none, "gap"⟩ : Media).process = none ∧
    (play c10Env).2 = .done .cmdNone ∧
    (play c10Env).2 ≠ .panic .processNone := by
  decide

/-- Claim C10, amended: for every item with a command present whose playable
flag is absent, and for every playable item with a command present whose
filter field is absent, the loop panics (unwrap on `None`). -/
theorem claim_C10_amended (cfg : Cfg) (m : Media) (ie : ItemEnv)
    (rest : List (Media × ItemEnv)) (lo slot : Bool) (c : List String)
    (hc : m.cmd = some c) :
    (m.process = none →
      runItems cfg ((m, ie) :: rest) lo slot =
        ([], lo, slot, .panicked .processNone)) ∧
    (m.process = some true → m.filter = none →
      runItems cfg ((m, ie) :: rest) lo slot =
        ([.logPlay m.source], lo, slot, .panicked .filterNone)) := by
  constructor
  · intro hp
    exact runItems_cons_processNone cfg m ie rest lo slot c hc hp
  · intro hp hf
    exact runItems_cons_filterNone cfg m ie rest lo slot c hc hp hf

/-- Witness for the amended C10: both unwrap panics at concrete items. -/
theorem claim_C10_witness :
    runItems ⟨"level+info", [], false⟩
        [(⟨some ["-i", "x.mp4"], none, some [], "x.mp4"⟩,
          ⟨true, true, [], true⟩)] false false =
      ([], false, false, .panicked .processNone) ∧
    runItems ⟨"level+info", [], false⟩
        [(⟨some ["-i", "y.mp4"], some true, none, "y.mp4"⟩,
          ⟨true, true, [], true⟩)] false false =
      ([.logPlay "y.mp4"], false, false, .panicked .filterNone) := by
  constructor
  · exact (claim_C10_amended ⟨"level+info", [], false⟩
      (⟨some ["-i", "x.mp4"], none, some [], "x.mp4"⟩)
      (⟨true, true, [], true⟩) [] false false ["-i", "x.mp4"] rfl).1 rfl
  · exact (claim_C10_amended ⟨"level+info", [], false⟩
      (⟨some ["-i", "y.mp4"], some true, none, "y.mp4"⟩)
      (⟨true, true, [], true⟩) [] false false ["-i", "y.mp4"] rfl).2 rfl rfl

/-! ## Facts about the takeover event block -/

theorem countReadDec_takeoverEvs (hi kd slot tq : Bool) :
    countReadDec (takeoverEvs hi kd slot tq) = 0 := by
  rw [takeoverEvs]
  split_ifs <;> simp [countReadDec, countReadDec_append]

theorem countRecv_takeoverEvs (hi kd slot tq : Bool) :
    countRecv (takeoverEvs hi kd slot tq) = 0 := by
  rw [takeoverEvs]
  split_ifs <;> simp [countRecv, countRecv_append]

theorem encBytes_takeoverEvs (hi kd slot tq : Bool) :
    encBytes (takeoverEvs hi kd slot tq) = [] := by
  rw [takeoverEvs]
  split_ifs <;> simp [encBytes, encBytes_append]

theorem countTermReq_takeoverEvs (hi tq : Bool) :
    countTermReq (takeoverEvs hi true true tq) = 1 := by
  cases hi <;> cases tq <;>
    simp [takeoverEvs, countTermReq, countTermReq_append]

theorem countSetInit_takeoverEvs (hi tq : Bool) :
    countSetInit (takeoverEvs hi true true tq) = if hi then 1 else 0 := by
  cases hi <;> cases tq <;>
    simp [takeoverEvs, countSetInit, countSetInit_append]

/-! ## Claim C3: handback only on zero-length read with no pending chunk -/

/-- Claim C3: the inner loop exits with the item done only at an iteration
whose decoder read returned zero bytes and whose ingest poll was empty (and
that iteration is the last executed one: the reads performed are exactly the
prefix before it plus its own); and when a chunk is pending in the same
iteration as a zero-length read, the loop takes the Live branch — forwards
the chunk and continues — instead of exiting the item. -/
theorem claim_C3_handback (hi : Bool) :
    (∀ (iters : List IterEnv) (lo kd slot : Bool),
      (runIters hi iters lo kd slot).2.2 = .eof →
      ∃ pre e post, iters = pre ++ e :: post ∧ e.decRead = .ok [] ∧
        e.ingest = none ∧
        countReadDec (runIters hi iters lo kd slot).1 = pre.length + 1) ∧
    (∀ (e : IterEnv) (rest : List IterEnv) (lo kd slot : Bool)
      (c : List Nat), e.decRead = .ok [] → e.ingest = some c →
      e.ingestWriteOk = true →
      (runIters hi (e :: rest) lo kd slot).1 =
        Ev.readDec (.ok []) :: Ev.recvChunk c :: Ev.writeEnc c ::
          takeoverEvs hi kd slot e.termOk ++
            (runIters hi rest true false slot).1 ∧
      (runIters hi (e :: rest) lo kd slot).2 =
        (runIters hi rest true false slot).2) := by
  constructor
  · intro iters
    induction iters with
    | nil => intro lo kd slot h; simp [runIters] at h
    | cons e rest ih =>
      intro lo kd slot h
      cases he : e.decRead with
      | error u =>
        cases u
        rw [runIters_cons_readErr hi e rest lo kd slot he] at h
        simp at h
      | ok bs =>
        cases hc : e.ingest with
        | some chunk =>
          cases hw : e.ingestWriteOk with
          | false =>
            rw [runIters_cons_liveFail hi e rest lo kd slot bs chunk he hc hw]
              at h
            simp at h
          | true =>
            rw [runIters_cons_live hi e rest lo kd slot bs chunk he hc hw] at h
            obtain ⟨pre, e', post, hsplit, hr', hin, hcount⟩ :=
              ih true false slot h
            refine ⟨e :: pre, e', post, by rw [hsplit]; rfl, hr', hin, ?_⟩
            rw [runIters_cons_live hi e rest lo kd slot bs chunk he hc hw]
            simp [countReadDec, countReadDec_append, countReadDec_takeoverEvs,
              hcount]
        | none =>
          by_cases hbs : bs = []
          · subst hbs
            refine ⟨[], e, rest, rfl, he, hc, ?_⟩
            rw [runIters_cons_eof hi e rest lo kd slot he hc]
            cases lo <;> simp [countReadDec]
          · cases hw : e.decWrite with
            | error u =>
              cases u
              rw [runIters_cons_schedFail hi e rest lo kd slot bs he hc hbs hw]
                at h
              simp at h
            | ok n =>
              rw [runIters_cons_sched hi e rest lo kd slot bs n he hc hbs hw]
                at h
              obtain ⟨pre, e', post, hsplit, hr', hin, hcount⟩ :=
                ih lo kd slot h
              refine ⟨e :: pre, e', post, by rw [hsplit]; rfl, hr', hin, ?_⟩
              rw [runIters_cons_sched hi e rest lo kd slot bs n he hc hbs hw]
              simp [countReadDec, hcount]
  · intro e rest lo kd slot c he hc hw
    rw [runIters_cons_live hi e rest lo kd slot [] c he hc hw]
    exact ⟨rfl, rfl⟩

/-- Witness for C3 at concrete runs: a normal handback run decomposes at its
zero-read/no-chunk iteration, and a zero-read iteration with a pending chunk
continues the loop instead of exiting. -/
theorem claim_C3_witness :
    (∃ pre e post, c3EofIters = pre ++ e :: post ∧ e.decRead = .ok [] ∧
      e.ingest = none ∧
      countReadDec (runIters false c3EofIters false true true).1 =
        pre.length + 1) ∧
    (runIters false
        ((⟨.ok [], some [9], true, .ok 0, true⟩ : IterEnv) :: [])
        false true true).2 =
      (runIters false [] true false true).2 := by
  refine ⟨(claim_C3_handback false).1 c3EofIters false true true (by decide),
    ((claim_C3_handback false).2 ⟨.ok [], some [9], true, .ok 0, true⟩ []
      false true true [9] rfl rfl rfl).2⟩

/-! ## Claim C9: decoder bytes read in an ingest iteration are discarded -/

/-- Claim C9: in an iteration with an ingest chunk pending, the decoder bytes
read at the start of that iteration are never written to the encoder and are
not buffered for later: the iteration appends exactly the chunk, and the
whole remaining run — encoder bytes and outcome — is unchanged if those read
bytes (up to one full 65424-byte buffer) are replaced by any others, in the
takeover iteration (`kd = true`) and after it alike. -/
theorem claim_C9_discard (hi : Bool) (rest : List IterEnv) (lo kd slot : Bool)
    (c b b' : List Nat) (w w' : Except Unit Nat) (tq : Bool)
    (hb : b.length ≤ bufLen) (hb' : b'.length ≤ bufLen) :
    (runIters hi (⟨.ok b, some c, true, w, tq⟩ :: rest) lo kd slot).1 =
      Ev.readDec (.ok b) :: Ev.recvChunk c :: Ev.writeEnc c ::
        takeoverEvs hi kd slot tq ++ (runIters hi rest true false slot).1 ∧
    encBytes (runIters hi (⟨.ok b, some c, true, w, tq⟩ :: rest) lo kd slot).1 =
      encBytes
        (runIters hi (⟨.ok b', some c, true, w', tq⟩ :: rest) lo kd slot).1 ∧
    (runIters hi (⟨.ok b, some c, true, w, tq⟩ :: rest) lo kd slot).2 =
      (runIters hi (⟨.ok b', some c, true, w', tq⟩ :: rest) lo kd slot).2 := by
  rw [runIters_cons_live hi ⟨.ok b, some c, true, w, tq⟩ rest lo kd slot b c
      rfl rfl rfl,
    runIters_cons_live hi ⟨.ok b', some c, true, w', tq⟩ rest lo kd slot b' c
      rfl rfl rfl]
  exact ⟨rfl,
    by simp [encBytes, encBytes_append, encBytes_takeoverEvs], rfl⟩

/-- Witness for C9: replacing the 3 bytes read in the takeover iteration by
a different single byte (and a failing scheduled-write environment) changes
nothing the encoder sees. -/
theorem claim_C9_witness :
    ([1, 2, 3] : List Nat).length ≤ bufLen ∧
    encBytes (runIters false
        (⟨.ok [1, 2, 3], some [9], true, .ok 3, true⟩ ::
          [⟨.ok [], none, true, .ok 0, true⟩]) false true true).1 =
      encBytes (runIters false
        (⟨.ok [7], some [9], true, .error (), true⟩ ::
          [⟨.ok [], none, true, .ok 0, true⟩]) false true true).1 := by
  refine ⟨by decide,
    (claim_C9_discard false [⟨.ok [], none, true, .ok 0, true⟩] false true
      true [9] [1, 2, 3] [7] (.ok 3) (.error ()) true (by decide)
      (by decide)).2.1⟩

/-! ## Claim C8: termination-request failure is non-fatal but unlogged -/

/-- Claim C8 as stated is false in its logging half: here the takeover's
`terminate()` fails and the trace contains the request with no
switch-to-live log line (line 180-182 logs only on `Ok`); the run still
continues to a normal handback, so the failure is indeed non-fatal. -/
theorem claim_C8_counterexample :
    (runIters true c8Iters false true true).1 =
      [.readDec (.ok [5]), .recvChunk [9], .writeEnc [9], .termReq false,
       .setInit, .readDec (.ok []), .logSwitchFromLive] ∧
    Ev.termReq false ∈ (runIters true c8Iters false true true).1 ∧
    Ev.logSwitchToLive ∉ (runIters true c8Iters false true true).1 ∧
    (runIters true c8Iters false true true).2.2 = ItemExit.eof := by
  decide

/-- Claim C8, amended: a failed decoder-termination request is never
propagated as fatal — the run's outcome and the encoder's bytes are identical
whether the request succeeds or fails — and a successful request is logged,
but a failed request produces no log line. -/
theorem claim_C8_never_fatal (hi : Bool) (rest : List IterEnv)
    (lo slot : Bool) (bs c : List Nat) (w : Except Unit Nat) :
    (runIters hi (⟨.ok bs, some c, true, w, false⟩ :: rest) lo true slot).2 =
      (runIters hi (⟨.ok bs, some c, true, w, true⟩ :: rest) lo true slot).2 ∧
    encBytes
        (runIters hi (⟨.ok bs, some c, true, w, false⟩ :: rest) lo true
          slot).1 =
      encBytes
        (runIters hi (⟨.ok bs, some c, true, w, true⟩ :: rest) lo true
          slot).1 ∧
    (slot = true →
      Ev.termReq false ∈
        (runIters hi (⟨.ok bs, some c, true, w, false⟩ :: rest) lo true
          slot).1 ∧
      Ev.logSwitchToLive ∉
        (runIters hi (⟨.ok bs, some c, true, w, false⟩ :: rest) lo true
          slot).1 ∧
      Ev.termReq true ∈
        (runIters hi (⟨.ok bs, some c, true, w, true⟩ :: rest) lo true
          slot).1 ∧
      Ev.logSwitchToLive ∈
        (runIters hi (⟨.ok bs, some c, true, w, true⟩ :: rest) lo true
          slot).1) := by
  rw [runIters_cons_live hi ⟨.ok bs, some c, true, w, false⟩ rest lo true slot
      bs c rfl rfl rfl,
    runIters_cons_live hi ⟨.ok bs, some c, true, w, true⟩ rest lo true slot
      bs c rfl rfl rfl]
  refine ⟨rfl, by simp [encBytes, encBytes_append, encBytes_takeoverEvs], ?_⟩
  intro hslot
  subst hslot
  have hno := (runIters_kdFalse hi rest true true).2.2
  refine ⟨?_, ?_, ?_, ?_⟩
  · cases hi <;> simp [takeoverEvs]
  · cases hi <;> simp [takeoverEvs, hno]
  · cases hi <;> simp [takeoverEvs]
  · cases hi <;> simp [takeoverEvs]

/-- Witness for the amended C8 at a concrete takeover. -/
theorem claim_C8_witness :
    (runIters true
        (⟨.ok [5], some [9], true, .ok 0, false⟩ ::
          [⟨.ok [], none, true, .ok 0, true⟩]) false true true).2 =
      (runIters true
        (⟨.ok [5], some [9], true, .ok 0, true⟩ ::
          [⟨.ok [], none, true, .ok 0, true⟩]) false true true).2 ∧
    Ev.logSwitchToLive ∈
      (runIters true
        (⟨.ok [5], some [9], true, .ok 0, true⟩ ::
          [⟨.ok [], none, true, .ok 0, true⟩]) false true true).1 := by
  have h := claim_C8_never_fatal true [⟨.ok [], none, true, .ok 0, true⟩]
    false true [5] [9] (.ok 0)
  exact ⟨h.1, (h.2.2 rfl).2.2.2⟩

/-! ## Claim C2: exactly one termination request per takeover -/

/-- Claim C2: once the first ingest chunk of an item is observed (after any
prefix of purely scheduled iterations), the decoder-termination request
happens exactly once in the whole item run, in that same iteration — after
exactly the prefix's reads plus that iteration's own read and the single
chunk reception, hence before any further decoder read — and, in playlist
mode, the resync/init flag is set in that same iteration and exactly once. -/
theorem claim_C2_takeover_once (hi : Bool) (pre : List IterEnv) (e : IterEnv)
    (post : List IterEnv) (lo : Bool) (c b : List Nat)
    (hpre : ∀ x ∈ pre, schedIter x)
    (hr : e.decRead = .ok b) (hc : e.ingest = some c)
    (hw : e.ingestWriteOk = true) :
    ∃ t0 t1,
      (runIters hi (pre ++ e :: post) lo true true).1 =
        t0 ++ Ev.termReq e.termOk :: t1 ∧
      countTermReq (runIters hi (pre ++ e :: post) lo true true).1 = 1 ∧
      countRecv t0 = 1 ∧
      countReadDec t0 = pre.length + 1 ∧
      countSetInit (runIters hi (pre ++ e :: post) lo true true).1 =
        (if hi then 1 else 0) ∧
      (hi = true →
        t1 = (if e.termOk then [Ev.logSwitchToLive] else []) ++
          Ev.setInit :: (runIters hi post true false true).1) := by
  obtain ⟨t0', h1, h2, h3, h4, h5, h6, h7⟩ :=
    runIters_sched_passthrough hi pre (e :: post) lo true true hpre
  have hlive := runIters_cons_live hi e post lo true true b c hr hc hw
  have hkd := runIters_kdFalse hi post true true
  have htk : takeoverEvs hi true true e.termOk =
      Ev.termReq e.termOk ::
        ((if e.termOk then [Ev.logSwitchToLive] else []) ++
          (if hi then [Ev.setInit] else [])) := by
    rw [takeoverEvs]
    simp
  refine ⟨t0' ++ [Ev.readDec (.ok b), Ev.recvChunk c, Ev.writeEnc c],
    (if e.termOk then [Ev.logSwitchToLive] else []) ++
      (if hi then [Ev.setInit] else []) ++
      (runIters hi post true false true).1, ?_, ?_, ?_, ?_, ?_, ?_⟩
  · rw [h1, hlive, htk]
    simp
  · rw [h1, hlive, htk]
    cases htq : e.termOk <;> cases hi <;>
      simp [countTermReq_append, countTermReq, h3, hkd.1]
  · simp [countRecv_append, countRecv, h6]
  · simp [countReadDec_append, countReadDec, h5]
  · rw [h1, hlive, htk]
    cases htq : e.termOk <;> cases hi <;>
      simp [countSetInit_append, countSetInit, h4, hkd.2.1]
  · intro hhi
    subst hhi
    simp

/-- Witness for C2 on a concrete run: scheduled iteration, first chunk in
iteration 2 (request exactly there, after exactly 2 reads), EOF after. -/
theorem claim_C2_witness :
    ∃ t0 t1,
      (runIters true c2Iters false true true).1 =
        t0 ++ Ev.termReq true :: t1 ∧
      countTermReq (runIters true c2Iters false true true).1 = 1 ∧
      countRecv t0 = 1 ∧
      countReadDec t0 = 2 ∧
      countSetInit (runIters true c2Iters false true true).1 = 1 := by
  have h := claim_C2_takeover_once true [⟨.ok [1], none, true, .ok 1, true⟩]
    ⟨.ok [2], some [9], true, .ok 0, true⟩
    [⟨.ok [], none, true, .ok 0, true⟩] false [9] [2]
    (by
      intro x hx
      simp at hx
      subst hx
      exact ⟨rfl, ⟨[1], rfl, by decide⟩, 1, rfl⟩)
    rfl rfl rfl
  obtain ⟨t0, t1, h1, h2, h3, h4, h5, _⟩ := h
  exact ⟨t0, t1, h1, h2, h3, h4, by simpa using h5⟩

/-! ## Claim C4: an encoder write failure ends the whole session cleanly -/

/-- Claim C4: a failing write to the encoder's input — live chunk
(`write_all`, line 169) or scheduled bytes (`write`, line 193) — exits the
inner loop with the session-ending cause; the item loop stops right there
(the remaining items are never touched), and `play` proceeds to the shutdown
sequence with a `done` result, not a panic. -/
theorem claim_C4_write_failure (env : SessionEnv) :
    (∀ (e : IterEnv) (rest : List IterEnv) (lo kd slot : Bool)
      (bs c : List Nat),
      e.decRead = .ok bs → e.ingest = some c → e.ingestWriteOk = false →
      runIters env.cfg.hasInit (e :: rest) lo kd slot =
        ([.readDec (.ok bs), .recvChunk c, .writeEncFail], lo, .encFail)) ∧
    (∀ (e : IterEnv) (rest : List IterEnv) (lo kd slot : Bool)
      (bs : List Nat),
      e.decRead = .ok bs → e.ingest = none → bs ≠ [] →
      e.decWrite = .error () →
      runIters env.cfg.hasInit (e :: rest) lo kd slot =
        ([.readDec (.ok bs), .writeEncFail], lo, .encFail)) ∧
    (∀ (m : Media) (ie : ItemEnv) (rest : List (Media × ItemEnv))
      (lo slot : Bool) (c f : List String),
      m.cmd = some c → m.process = some true → m.filter = some f →
      ie.spawnOk = true →
      (runIters env.cfg.hasInit ie.iters lo true ie.termAcquire).2.2 =
        .encFail →
      runItems env.cfg ((m, ie) :: rest) lo slot =
        ([Ev.logPlay m.source,
            Ev.spawnDec (decCmdSource env.cfg.ffLogFormat c f
              env.cfg.decSettings)] ++
          (runIters env.cfg.hasInit ie.iters lo true ie.termAcquire).1,
         (runIters env.cfg.hasInit ie.iters lo true ie.termAcquire).2.1,
         ie.termAcquire, .encFail)) ∧
    ((runItems env.cfg env.items false false).2.2.2 = .encFail →
      (play env).1 =
        (runItems env.cfg env.items false false).1 ++
          shutdownEvents (runItems env.cfg env.items false false).2.2.1 env ∧
      (play env).2 = .done .encFail ∧
      ∀ k, (play env).2 ≠ .panic k) := by
  refine ⟨?_, ?_, ?_, ?_⟩
  · intro e rest lo kd slot bs c hr hc hw
    exact runIters_cons_liveFail env.cfg.hasInit e rest lo kd slot bs c
      hr hc hw
  · intro e rest lo kd slot bs hr hc hbs hw
    exact runIters_cons_schedFail env.cfg.hasInit e rest lo kd slot bs
      hr hc hbs hw
  · intro m ie rest lo slot c f hc hp hf hs hex
    rw [runItems_cons_play env.cfg m ie rest lo slot c f hc hp hf hs]
    simp only [hex]
  · intro hex
    refine ⟨?_, ?_, ?_⟩ <;> simp [play, hex]

/-- Witness for C4: the concrete `c4Env` session, whose first item's first
iteration fails the ingest `write_all`: one spawn only (the second item is
never reached), a `done .encFail` result, and the shutdown trace appended. -/
theorem claim_C4_witness :
    (play c4Env).1 =
      (runItems c4Env.cfg c4Env.items false false).1 ++
        shutdownEvents (runItems c4Env.cfg c4Env.items false false).2.2.1
          c4Env ∧
    (play c4Env).2 = .done .encFail ∧
    countSpawn (play c4Env).1 = 1 := by
  have h := (claim_C4_write_failure c4Env).2.2.2 (by decide)
  exact ⟨h.1, h.2.1, by decide⟩

/-! ## Claim C7: shutdown sequence order and monotone session-ending flag -/

/-- Claim C7: whenever the item loop ends without a process abort (normal
exhaustion, command-less item, or encoder-write failure), `play` appends the
shutdown sequence in exactly this order: set the session-ending flag, the
fixed grace sleep, then best-effort termination of the decoder slot, the
encoder slot and the ingest-listener slot — each logged on success — then the
final log line; and the session-ending flag, once true, is never reset by any
trace of events. -/
theorem claim_C7_shutdown (env : SessionEnv) (ex : LoopExit)
    (hex : (runItems env.cfg env.items false false).2.2.2 = ex)
    (hok : ex = .cmdNone ∨ ex = .itemsEnd ∨ ex = .encFail) :
    (play env).1 =
      (runItems env.cfg env.items false false).1 ++
        ([Ev.setTerminated, Ev.sleepGrace] ++
          (if (runItems env.cfg env.items false false).2.2.1 then
            Ev.shutTermDec env.shutDecOk ::
              (if env.shutDecOk then [Ev.logShutDec] else [])
          else []) ++
          (if env.encTermAcquire then
            Ev.shutTermEnc env.shutEncOk ::
              (if env.shutEncOk then [Ev.logShutEnc] else [])
          else []) ++
          (if env.serverSlot then
            Ev.shutTermSrv env.shutSrvOk ::
              (if env.shutSrvOk then [Ev.logShutSrv] else [])
          else []) ++ [Ev.logPlayoutDone]) ∧
    (play env).2 = .done ex ∧
    (∀ tr : List Ev, terminatedAfter tr true = true) := by
  refine ⟨?_, ?_, fun tr => terminatedAfter_true tr⟩ <;>
    rcases hok with rfl | rfl | rfl <;>
    simp [play, hex, shutdownEvents, List.append_assoc]

/-- Witness for C7 at the concrete `c10Env` session (command-less first item,
decoder slot empty, encoder slot populated, no server slot). -/
theorem claim_C7_witness :
    (play c10Env).1 =
      [Ev.setTerminated, Ev.sleepGrace, Ev.shutTermEnc true, Ev.logShutEnc,
       Ev.logPlayoutDone] ∧
    (play c10Env).2 = .done .cmdNone ∧
    terminatedAfter [Ev.setTerminated] true = true := by
  have h := claim_C7_shutdown c10Env .cmdNone (by decide) (Or.inl rfl)
  refine ⟨?_, h.2.1, h.2.2 [Ev.setTerminated]⟩
  rw [h.1]
  decide

end FFplayout
